import Mathlib

/-!
Verification development for the opportunities module
(`packages/core/src/modules/opportunities.ts`).

The module is shallowly embedded: the database is an explicit record of
tables (lists of rows), every use case is a pure function from an
environment (timestamps, fetched page content, AI completion outcome,
external resolvers) and a database to a result and an updated database.
Timestamps are integers (epoch milliseconds); fallible code returns
`Except` (thrown exceptions) around an explicit success/failure `Res`.
-/

namespace Oyster

/-- Mirror of `Result<T>` from `shared/utils/core`: an explicit
success (`ok`) or failure (`err`) carrying an HTTP-like code and message. -/
inductive Res (α : Type) where
  | ok (data : α)
  | err (code : Nat) (error : String)
deriving DecidableEq

/-- JSON values, as produced by a successful `JSON.parse`. -/
inductive Json where
  | null
  | str (s : String)
  | num (n : Int)
  | bool (b : Bool)
  | arr (xs : List Json)
  | obj (fields : List (String × Json))

/-- Outcome of `getChatCompletion` composed with `JSON.parse`:
the completion call itself failed (`err`), the completion text was not
valid JSON (`notJson`), or it parsed to a JSON value (`json`). -/
inductive AiOutcome where
  | err (code : Nat) (error : String)
  | notJson
  | json (j : Json)

/-! ## String helpers (JS semantics) -/

/-- Whitespace characters removed by the JS `String.prototype.trim`. -/
def isJsWs (c : Char) : Bool :=
  c == ' ' || c == '\t' || c == '\n' || c == '\r' || c == '\x0b' || c == '\x0c'

/-- Trim leading and trailing whitespace from a character list. -/
def trimChars (cs : List Char) : List Char :=
  ((cs.dropWhile isJsWs).reverse.dropWhile isJsWs).reverse

/-- JS `s.trim()`. -/
def jsTrim (s : String) : String :=
  String.mk (trimChars s.data)

/-- JS `s.length` (code points; the sources only meet ASCII bounds). -/
def jsLen (s : String) : Nat :=
  s.data.length

/-- The characters of `s`, lowercased (JS `s.toLowerCase()`, ASCII). -/
def lowerChars (s : String) : List Char :=
  s.data.map Char.toLower

/-- `needle` occurs as a contiguous run inside `hay`
(JS `hay.includes(needle)` on character lists). -/
def containsSub (needle hay : List Char) : Bool :=
  match hay with
  | [] => needle.isEmpty
  | _ :: t => needle.isPrefixOf hay || containsSub needle t

/-- Fuelled SQL `LIKE` pattern matcher: `%` matches any run, `_` any one
character, `\` escapes the next pattern character. The fuel only bounds
recursion; `likeMatch` supplies enough for full evaluation. -/
def likeMatchF : Nat → List Char → List Char → Bool
  | 0, _, _ => false
  | _ + 1, [], s => s.isEmpty
  | fuel + 1, p :: ps, s =>
    if p = '%' then
      (likeMatchF fuel ps s ||
        match s with
        | [] => false
        | _ :: s2 => likeMatchF fuel (p :: ps) s2)
    else if p = '_' then
      (match s with
       | [] => false
       | _ :: s2 => likeMatchF fuel ps s2)
    else if p = '\\' then
      (match ps with
       | [] => false
       | q :: ps2 =>
         match s with
         | [] => false
         | c :: s2 => (q == c) && likeMatchF fuel ps2 s2)
    else
      (match s with
       | [] => false
       | c :: s2 => (p == c) && likeMatchF fuel ps s2)

/-- SQL `LIKE`: does `s` match `pattern`? -/
def likeMatch (pattern s : List Char) : Bool :=
  likeMatchF (2 * pattern.length + 2 * s.length + 1) pattern s

/-- Postgres `ILIKE`: case-insensitive `LIKE` (both sides lowercased). -/
def ilikeMatch (pattern s : String) : Bool :=
  likeMatch (lowerChars pattern) (lowerChars s)

/-! ## Expired-phrase scan -/

/-- The fixed `EXPIRED_PHRASES` list from the source. -/
def EXPIRED_PHRASES : List String :=
  ["404", "closed", "does not exist", "doesn\x27t exist", "expired", "filled",
   "no longer accepting", "no longer available", "no longer exists",
   "no longer open", "not accepting", "not available", "not be found",
   "not currently accepting", "not found", "not open", "oops", "removed",
   "sorry"]

/-- `EXPIRED_PHRASES.some((phrase) => content.toLowerCase().includes(phrase))`. -/
def hasExpiredContent (content : String) : Bool :=
  EXPIRED_PHRASES.any (fun phrase => containsSub phrase.data (lowerChars content))

/-! ## Data model

One row per table of the schema touched by the module. Timestamps are
epoch milliseconds (`Int`); nullable columns are `Option`. -/

/-- A row of the `opportunities` table (columns the module touches). -/
structure Opportunity where
  oid : String
  link : Option String
  title : String
  description : String
  companyId : Option String
  postedBy : Option String
  createdAt : Int
  expiresAt : Option Int
  lastExpirationCheck : Option Int
  refinedAt : Option Int
deriving DecidableEq

/-- A row of `opportunityTags`. -/
structure OppTag where
  tid : String
  name : String
deriving DecidableEq

/-- A row of `opportunityReports`; unique on `(opportunityId, reporterId)`. -/
structure OppReport where
  opportunityId : String
  reporterId : String
  reason : String
deriving DecidableEq

/-- A row of `admins`. -/
structure Admin where
  memberId : String
  deletedAt : Option Int
deriving DecidableEq

/-- The database state: the tables read or written by the module.
`opportunityTagAssociations` rows are `(opportunityId, tagId)` pairs and
`opportunityBookmarks` rows are `(opportunityId, studentId)` pairs. -/
structure Db where
  opportunities : List Opportunity
  opportunityTags : List OppTag
  opportunityTagAssociations : List (String × String)
  opportunityBookmarks : List (String × String)
  opportunityReports : List OppReport
  admins : List Admin
deriving DecidableEq

/-! ## Zod validation of the AI response

Mirrors `RefineOpportunityResponse`:
`company: z.string().trim().min(1).nullable()`,
`description: z.string().trim().min(1).max(500).nullable()`,
`expiresAt: z.string().nullable()`,
`tags: z.array(z.string().trim().min(1)).min(1).nullable()`,
`title: z.string().trim().min(1).max(100).nullable()`. -/

/-- The validated shape of the AI extraction. -/
structure RefineResponse where
  company : Option String
  description : Option String
  expiresAt : Option String
  tags : Option (List String)
  title : Option String
deriving DecidableEq

/-- Look up a key of a JSON object (`zod` required-field access). -/
def jsonField (fields : List (String × Json)) (key : String) : Option Json :=
  (fields.find? (fun kv => kv.1 == key)).map (fun kv => kv.2)

/-- `z.string().trim().min(lo)[.max(hi)].nullable()` on a JSON value. -/
def parseNullableStr (lo : Nat) (hi : Option Nat) : Json → Option (Option String)
  | Json.null => some none
  | Json.str s =>
    let t := jsTrim s
    if lo ≤ jsLen t && (match hi with | some h => jsLen t ≤ h | none => true) then
      some (some t)
    else
      none
  | _ => none

/-- `z.string().nullable()` (the `expiresAt` field). -/
def parseNullableRawStr : Json → Option (Option String)
  | Json.null => some none
  | Json.str s => some (some s)
  | _ => none

/-- One element of the `tags` array: `z.string().trim().min(1)`. -/
def parseTagItem : Json → Option String
  | Json.str s =>
    let t := jsTrim s
    if 1 ≤ jsLen t then some t else none
  | _ => none

/-- All elements of the `tags` array, failing if any element fails. -/
def parseTagList : List Json → Option (List String)
  | [] => some []
  | x :: xs =>
    match parseTagItem x, parseTagList xs with
    | some t, some ts => some (t :: ts)
    | _, _ => none

/-- `z.array(z.string().trim().min(1)).min(1).nullable()`. -/
def parseTags : Json → Option (Option (List String))
  | Json.null => some none
  | Json.arr xs =>
    match parseTagList xs with
    | some ts => if 1 ≤ ts.length then some (some ts) else none
    | none => none
  | _ => none

/-- `RefineOpportunityResponse.parse`: `none` when the JSON value does not
validate (zod throws). -/
def validateRefineResponse : Json → Option RefineResponse
  | Json.obj fields =>
    match (jsonField fields "company").bind (parseNullableStr 1 none),
          (jsonField fields "description").bind (parseNullableStr 1 (some 500)),
          (jsonField fields "expiresAt").bind parseNullableRawStr,
          (jsonField fields "tags").bind parseTags,
          (jsonField fields "title").bind (parseNullableStr 1 (some 100)) with
    | some company, some description, some expiresAt, some tags, some title =>
      some { company := company, description := description,
             expiresAt := expiresAt, tags := tags, title := title }
    | _, _, _, _, _ => none
  | _ => none

/-! ## Operations -/

/-- Environment of `refineOpportunity`: the composed AI outcome, the external
`saveCompanyIfNecessary` resolver, the JS `new Date(string)` parser and the
current time. -/
structure RefineEnv where
  aiOutcome : AiOutcome
  resolveCompany : String → Option String
  parseDate : String → Int
  now : Int

/-- Input of `refineOpportunity` (the optional Slack fields only drive
notifications, which have no effect on the store). -/
structure RefineInput where
  content : String
  opportunityId : String

/-- The field update applied by the refinement transaction:
description and title only when extracted (they always are on this path),
`companyId` unconditionally (resolved, or null), and `expiresAt` only when
the AI returned a date (`undefined` is dropped by the query builder, so a
null AI expiry leaves the stored value untouched). -/
def applyRefineFields (env : RefineEnv) (data : RefineResponse)
    (o : Opportunity) : Opportunity :=
  { o with
      description := match data.description with
        | some d => d
        | none => o.description
      title := match data.title with
        | some t => t
        | none => o.title
      companyId := match data.company with
        | some name => env.resolveCompany name
        | none => none
      expiresAt := match data.expiresAt with
        | some s => some (env.parseDate s)
        | none => o.expiresAt }

/-- `refineOpportunity`: validates the AI completion, exits gracefully when
title or description is missing, otherwise atomically updates the row, sets
`refinedAt` only where it is still null, and idempotently inserts the tag
associations whose names match catalog tags. `Except.error` models the
`executeTakeFirstOrThrow` throw when no row has the given id. -/
def refineOpportunity (env : RefineEnv) (db : Db) (input : RefineInput) :
    Except String (Res (Option Opportunity) × Db) :=
  match env.aiOutcome with
  | AiOutcome.err c e => Except.ok (Res.err c e, db)
  | AiOutcome.notJson =>
    Except.ok (Res.err 400 "Failed to parse JSON from AI response.", db)
  | AiOutcome.json j =>
    match validateRefineResponse j with
    | none =>
      Except.ok (Res.err 400 "Failed to validate JSON from AI response.", db)
    | some data =>
      if data.title.isNone || data.description.isNone then
        Except.ok (Res.ok none, db)
      else
        match db.opportunities.find? (fun o => o.oid == input.opportunityId) with
        | none => Except.error "no result"
        | some row =>
          let updatedRow := applyRefineFields env data row
          let opps1 := db.opportunities.map (fun o =>
            if o.oid == input.opportunityId then applyRefineFields env data o
            else o)
          let opps2 := opps1.map (fun o =>
            if o.oid == input.opportunityId && o.refinedAt.isNone then
              { o with refinedAt := some env.now }
            else o)
          let db1 := { db with opportunities := opps2 }
          match data.tags with
          | none => Except.ok (Res.ok (some updatedRow), db1)
          | some tagNames =>
            let matchedTags :=
              db.opportunityTags.filter (fun t => tagNames.contains t.name)
            let assocs := matchedTags.foldl (fun acc t =>
              if acc.contains (input.opportunityId, t.tid) then acc
              else acc ++ [(input.opportunityId, t.tid)])
              db.opportunityTagAssociations
            Except.ok (Res.ok (some updatedRow),
                       { db1 with opportunityTagAssociations := assocs })

/-- Environment of `addOpportunity`: a generated id, the current time, the
`dayjs().add(1, 'month')` expiry default, the `getPageContent` outcome
(`none` models a thrown fetch, reported and swallowed) and the environment
of the nested refinement call. -/
structure AddEnv where
  newId : String
  now : Int
  monthFromNow : Int
  pageContent : Option String
  refineEnv : RefineEnv

/-- `addOpportunity`: rejects when any stored link `ILIKE`-matches the
submitted link, inserts the placeholder row, swallows fetch failures,
hard-deletes the placeholder and fails 404 when the content carries an
expired phrase, and otherwise runs refinement, ignoring its result. -/
def addOpportunity (env : AddEnv) (db : Db) (link postedBy : String) :
    Except String (Res String × Db) :=
  if db.opportunities.any (fun o =>
      match o.link with
      | some l => ilikeMatch link l
      | none => false) then
    Except.ok (Res.err 409 "Someone already posted this link.", db)
  else
    let newOpp : Opportunity :=
      { oid := env.newId, link := some link, title := "Opportunity",
        description := "N/A", companyId := none, postedBy := some postedBy,
        createdAt := env.now, expiresAt := some env.monthFromNow,
        lastExpirationCheck := none, refinedAt := none }
    let db1 := { db with opportunities := db.opportunities ++ [newOpp] }
    let websiteContent := env.pageContent.getD ""
    if websiteContent == "" then
      Except.ok (Res.ok env.newId, db1)
    else if hasExpiredContent websiteContent then
      let db2 := { db1 with opportunities :=
        db1.opportunities.filter (fun o => !(o.oid == env.newId)) }
      Except.ok
        (Res.err 404 "It looks like the opportunity you are trying to add has closed.",
         db2)
    else
      match refineOpportunity env.refineEnv db1
          { content := websiteContent, opportunityId := env.newId } with
      | Except.error e => Except.error e
      | Except.ok (_, db2) => Except.ok (Res.ok env.newId, db2)

/-- `bookmarkOpportunity`: inside one transaction, delete the
`(opportunityId, memberId)` bookmark rows; if none were deleted, insert
one. The analytics and gamification side effects touch no table here. -/
def bookmarkOpportunity (db : Db) (memberId opportunityId : String) :
    Res Unit × Db :=
  if db.opportunityBookmarks.any (fun b =>
      b.1 == opportunityId && b.2 == memberId) then
    (Res.ok (), { db with opportunityBookmarks :=
      db.opportunityBookmarks.filter (fun b =>
        !(b.1 == opportunityId && b.2 == memberId)) })
  else
    (Res.ok (), { db with opportunityBookmarks :=
      db.opportunityBookmarks ++ [(opportunityId, memberId)] })

/-- Environment of `checkForExpiredOpportunity`: the current time and the
`getPageContent` outcome (`none` models a thrown fetch). -/
structure CheckEnv where
  now : Int
  fetchResult : Option String

/-- Outcome of `checkForExpiredOpportunity`, together with whether
`getPageContent` was invoked. -/
structure CheckOutcome where
  result : Res Bool
  db : Db
  fetched : Bool
deriving DecidableEq

/-- The selection predicate of the `checkForExpiredOpportunity` query:
`expiresAt > now` and, unless forced, a null or stale (three hours or
older) `lastExpirationCheck`. -/
def expiredCheckSelected (env : CheckEnv) (force : Bool)
    (o : Opportunity) : Bool :=
  (match o.expiresAt with
   | some e => env.now < e
   | none => false) &&
  (force || o.lastExpirationCheck.isNone ||
    (match o.lastExpirationCheck with
     | some t => t ≤ env.now - 10800000
     | none => false))

/-- `checkForExpiredOpportunity`: selects the throttled row, exits
gracefully when it is absent or has no usable link, stamps
`lastExpirationCheck`, fetches the page (a thrown fetch is a reported 500),
and marks the row expired when an expired phrase occurs. -/
def checkForExpiredOpportunity (env : CheckEnv) (db : Db)
    (opportunityId : String) (force : Bool) : CheckOutcome :=
  match db.opportunities.find? (fun o =>
      o.oid == opportunityId && expiredCheckSelected env force o) with
  | none => { result := Res.ok false, db := db, fetched := false }
  | some o =>
    match o.link with
    | none => { result := Res.ok false, db := db, fetched := false }
    | some l =>
      if l == "" then { result := Res.ok false, db := db, fetched := false }
      else
        let db1 := { db with opportunities := db.opportunities.map (fun o2 =>
          if o2.oid == opportunityId then
            { o2 with lastExpirationCheck := some env.now }
          else o2) }
        match env.fetchResult with
        | none =>
          { result := Res.err 500 "Failed to get page content.", db := db1,
            fetched := true }
        | some content =>
          let hasExpired := hasExpiredContent content
          let db2 :=
            if hasExpired then
              { db1 with opportunities := db1.opportunities.map (fun o2 =>
                if o2.oid == opportunityId then { o2 with expiresAt := some env.now }
                else o2) }
            else db1
          { result := Res.ok hasExpired, db := db2, fetched := true }

/-- `reportOpportunity`: idempotently records the report, counts the
reports for the opportunity, looks for any `admins` row of the reporter
(note: without a `deletedAt` filter), and expires the opportunity when the
count reaches two or such a row exists. -/
def reportOpportunity (now : Int) (db : Db)
    (opportunityId reason reporterId : String) : Res Bool × Db :=
  let reports1 :=
    if db.opportunityReports.any (fun r =>
        r.opportunityId == opportunityId && r.reporterId == reporterId) then
      db.opportunityReports
    else
      db.opportunityReports ++
        [{ opportunityId := opportunityId, reporterId := reporterId,
           reason := reason }]
  let reports :=
    (reports1.filter (fun r => r.opportunityId == opportunityId)).length
  let admin := db.admins.any (fun a => a.memberId == reporterId)
  let shouldRemove := decide (2 ≤ reports) || admin
  let db1 := { db with opportunityReports := reports1 }
  let db2 :=
    if shouldRemove then
      { db1 with opportunities := db1.opportunities.map (fun o =>
        if o.oid == opportunityId then { o with expiresAt := some now } else o) }
    else db1
  (Res.ok shouldRemove, db2)

/-- The active-admin test used by the permission query:
an `admins` row for the member with `deletedAt` null. -/
def isActiveAdmin (db : Db) (memberId : String) : Bool :=
  db.admins.any (fun a => a.memberId == memberId && a.deletedAt.isNone)

/-- `hasOpportunityWritePermission`: some `opportunities` row with the
given id exists whose poster is the member, or exists while the member is
an active admin. -/
def hasOpportunityWritePermission (db : Db) (memberId opportunityId : String) :
    Bool :=
  db.opportunities.any (fun o =>
    o.oid == opportunityId &&
      (o.postedBy == some memberId || isActiveAdmin db memberId))

/-- The hard delete of an opportunity row; the schema cascades to tag
associations, bookmarks and reports. -/
def deleteOpportunityRow (db : Db) (opportunityId : String) :
    Res String × Db :=
  (Res.ok opportunityId,
   { db with
      opportunities :=
        db.opportunities.filter (fun o => !(o.oid == opportunityId)),
      opportunityTagAssociations :=
        db.opportunityTagAssociations.filter (fun a => !(a.1 == opportunityId)),
      opportunityBookmarks :=
        db.opportunityBookmarks.filter (fun b => !(b.1 == opportunityId)),
      opportunityReports :=
        db.opportunityReports.filter (fun r =>
          !(r.opportunityId == opportunityId)) })

/-- `deleteOpportunity`: when a member id is supplied the write-permission
check gates the delete with a 403; without one the delete is unconditional. -/
def deleteOpportunity (db : Db) (memberId : Option String)
    (opportunityId : String) : Res String × Db :=
  match memberId with
  | some m =>
    if !hasOpportunityWritePermission db m opportunityId then
      (Res.err 403 "You do not have permission to delete this opportunity.", db)
    else
      deleteOpportunityRow db opportunityId
  | none => deleteOpportunityRow db opportunityId

deriving instance DecidableEq for Except

/-! ## Helper lemmas -/

theorem any_filter_not_eq_false {α : Type} (l : List α) (p : α → Bool) :
    (l.filter (fun a => !(p a))).any p = false := by
  rw [List.any_eq_false]
  intro x hx
  have hmem := List.mem_filter.mp hx
  simpa using hmem.2

theorem filter_eq_nil_of_any_eq_false {α : Type} (l : List α) (p : α → Bool)
    (h : l.any p = false) : l.filter p = [] := by
  rw [List.filter_eq_nil_iff]
  intro a ha
  simpa using (List.any_eq_false.mp h) a ha

theorem find?_and_eq_some {α : Type} (p q : α → Bool) (l : List α) (o : α)
    (h : l.find? p = some o) (hq : q o = true) :
    l.find? (fun x => p x && q x) = some o := by
  induction l with
  | nil => simp [List.find?] at h
  | cons x xs ih =>
    by_cases hx : p x = true
    · have hxo : x = o := by
        rw [List.find?_cons_of_pos _ hx] at h
        exact Option.some.inj h
      subst hxo
      rw [List.find?_cons_of_pos]
      simp [hx, hq]
    · rw [List.find?_cons_of_neg _ hx] at h
      rw [List.find?_cons_of_neg]
      · exact ih h
      · simp [hx]

theorem bookmark_step (db : Db) (m o : String) :
    ((bookmarkOpportunity db m o).2.opportunityBookmarks.any
        (fun b => b.1 == o && b.2 == m)
      = !(db.opportunityBookmarks.any (fun b => b.1 == o && b.2 == m))) ∧
    ((bookmarkOpportunity db m o).2.opportunityBookmarks.filter
        (fun b => b.1 == o && b.2 == m)).length ≤ 1 := by
  cases h : db.opportunityBookmarks.any (fun b => b.1 == o && b.2 == m) with
  | true =>
    have e1 : (bookmarkOpportunity db m o).2.opportunityBookmarks
        = db.opportunityBookmarks.filter (fun b => !(b.1 == o && b.2 == m)) := by
      simp [bookmarkOpportunity, h]
    constructor
    · rw [e1, Bool.not_true]
      exact any_filter_not_eq_false _ _
    · have hnil := filter_eq_nil_of_any_eq_false _ _
        (any_filter_not_eq_false db.opportunityBookmarks
          (fun b => b.1 == o && b.2 == m))
      rw [e1, hnil]
      simp
  | false =>
    have e1 : (bookmarkOpportunity db m o).2.opportunityBookmarks
        = db.opportunityBookmarks ++ [(o, m)] := by
      simp [bookmarkOpportunity, h]
    constructor
    · rw [e1, List.any_append]
      simp [h]
    · rw [e1, List.filter_append, filter_eq_nil_of_any_eq_false _ _ h]
      simp

/-! ## Claims -/

/-- C9: the bookmark operation toggles presence of the
`(member, opportunity)` pair: after one call the pair is present exactly
when it was absent before, after two calls in sequence the pair is back to
its initial bookmarked state, and after any single call at most one
bookmark row exists for the pair. -/
theorem bookmark_toggle (db : Db) (memberId opportunityId : String) :
    ((bookmarkOpportunity (bookmarkOpportunity db memberId opportunityId).2
        memberId opportunityId).2.opportunityBookmarks.any
        (fun b => b.1 == opportunityId && b.2 == memberId)
      = db.opportunityBookmarks.any
        (fun b => b.1 == opportunityId && b.2 == memberId)) ∧
    ((bookmarkOpportunity db memberId opportunityId).2.opportunityBookmarks.filter
        (fun b => b.1 == opportunityId && b.2 == memberId)).length ≤ 1 ∧
    ((bookmarkOpportunity db memberId opportunityId).2.opportunityBookmarks.any
        (fun b => b.1 == opportunityId && b.2 == memberId)
      = !(db.opportunityBookmarks.any
        (fun b => b.1 == opportunityId && b.2 == memberId))) := by
  obtain ⟨s1a, s1b⟩ := bookmark_step db memberId opportunityId
  obtain ⟨s2a, _⟩ := bookmark_step
    (bookmarkOpportunity db memberId opportunityId).2 memberId opportunityId
  refine ⟨?_, s1b, s1a⟩
  rw [s2a, s1a, Bool.not_not]

/-- The number of stored reports for an opportunity. -/
def reportCount (db : Db) (opportunityId : String) : Nat :=
  (db.opportunityReports.filter (fun r => r.opportunityId == opportunityId)).length

/-- Whether the reporter has any `admins` row at all, deleted or not:
the test `reportOpportunity` actually performs. -/
def hasAdminRow (db : Db) (memberId : String) : Bool :=
  db.admins.any (fun a => a.memberId == memberId)

/-- C2 (amended): after idempotently recording the report, the opportunity
is expired (`expiresAt` set to now) and `removed = true` is returned if and
only if the post-insert report count is at least two or the reporter has
any `admins` row — deleted or not; otherwise the opportunities table is
untouched and `removed = false` is returned. -/
theorem report_removal_rule (now : Int) (db : Db)
    (opportunityId reason reporterId : String) :
    ((reportOpportunity now db opportunityId reason reporterId).1
      = Res.ok
          (decide (2 ≤ reportCount
              (reportOpportunity now db opportunityId reason reporterId).2
              opportunityId)
            || hasAdminRow db reporterId)) ∧
    ((2 ≤ reportCount (reportOpportunity now db opportunityId reason reporterId).2
          opportunityId
        ∨ hasAdminRow db reporterId = true) →
      (reportOpportunity now db opportunityId reason reporterId).2.opportunities
        = db.opportunities.map (fun o =>
            if o.oid == opportunityId then { o with expiresAt := some now }
            else o)) ∧
    (¬(2 ≤ reportCount (reportOpportunity now db opportunityId reason reporterId).2
          opportunityId
        ∨ hasAdminRow db reporterId = true) →
      (reportOpportunity now db opportunityId reason reporterId).2.opportunities
        = db.opportunities) := by
  have hrep : (reportOpportunity now db opportunityId reason reporterId).2.opportunityReports
      = (if db.opportunityReports.any (fun r =>
            r.opportunityId == opportunityId && r.reporterId == reporterId)
         then db.opportunityReports
         else db.opportunityReports ++
           [{ opportunityId := opportunityId, reporterId := reporterId,
              reason := reason }]) := by
    simp only [reportOpportunity]
    split <;> split <;> rfl
  refine ⟨?_, ?_, ?_⟩
  · unfold reportCount hasAdminRow
    rw [hrep]
    rfl
  · intro hrem
    unfold reportCount at hrem
    rw [hrep] at hrem
    have hc : (decide (2 ≤ ((if db.opportunityReports.any (fun r =>
            r.opportunityId == opportunityId && r.reporterId == reporterId)
          then db.opportunityReports
          else db.opportunityReports ++
            [{ opportunityId := opportunityId, reporterId := reporterId,
               reason := reason }]).filter
            (fun r => r.opportunityId == opportunityId)).length)
        || db.admins.any (fun a => a.memberId == reporterId)) = true := by
      rcases hrem with hcnt | hadm
      · rw [decide_eq_true hcnt, Bool.true_or]
      · unfold hasAdminRow at hadm
        rw [hadm, Bool.or_true]
    simp only [reportOpportunity]
    rw [hc]
    simp
  · intro hrem
    unfold reportCount hasAdminRow at hrem
    rw [hrep] at hrem
    push_neg at hrem
    obtain ⟨hcnt, hadm⟩ := hrem
    have hc : (decide (2 ≤ ((if db.opportunityReports.any (fun r =>
            r.opportunityId == opportunityId && r.reporterId == reporterId)
          then db.opportunityReports
          else db.opportunityReports ++
            [{ opportunityId := opportunityId, reporterId := reporterId,
               reason := reason }]).filter
            (fun r => r.opportunityId == opportunityId)).length)
        || db.admins.any (fun a => a.memberId == reporterId)) = false := by
      have h1 : decide (2 ≤ ((if db.opportunityReports.any (fun r =>
            r.opportunityId == opportunityId && r.reporterId == reporterId)
          then db.opportunityReports
          else db.opportunityReports ++
            [{ opportunityId := opportunityId, reporterId := reporterId,
               reason := reason }]).filter
            (fun r => r.opportunityId == opportunityId)).length) = false :=
        decide_eq_false (by omega)
      have h2 : db.admins.any (fun a => a.memberId == reporterId) = false :=
        Bool.eq_false_iff.mpr hadm
      rw [h1, h2]
      rfl
    simp only [reportOpportunity]
    rw [hc]
    simp

def c2Opp : Opportunity :=
  { oid := "oppA"
    link := some "http://a"
    title := "T"
    description := "D"
    companyId := none
    postedBy := some "bob"
    createdAt := 0
    expiresAt := some 1000
    lastExpirationCheck := none
    refinedAt := none }

def c2Db : Db :=
  { opportunities := [c2Opp]
    opportunityTags := []
    opportunityTagAssociations := []
    opportunityBookmarks := []
    opportunityReports := []
    admins := [{ memberId := "mem1", deletedAt := some 10 }] }

/-- C2 counterexample: a reporter with a soft-deleted `admins` row is not
an active admin and files the only report, yet the code returns
`removed = true` and expires the opportunity — the claim predicts
`removed = false` and no expiry. -/
theorem report_deleted_admin_cex :
    isActiveAdmin c2Db "mem1" = false ∧
    reportCount (reportOpportunity 50 c2Db "oppA" "spam" "mem1").2 "oppA" = 1 ∧
    (reportOpportunity 50 c2Db "oppA" "spam" "mem1").1 = Res.ok true ∧
    ((reportOpportunity 50 c2Db "oppA" "spam" "mem1").2.opportunities.map
        Opportunity.expiresAt) = [some 50] := by
  decide

def c2wDb : Db :=
  { opportunities := [c2Opp]
    opportunityTags := []
    opportunityTagAssociations := []
    opportunityBookmarks := []
    opportunityReports := []
    admins := [] }

theorem report_removal_rule_witness :
    (reportOpportunity 50 c2wDb "oppA" "spam" "mem1").1 = Res.ok false ∧
    (reportOpportunity 50 c2wDb "oppA" "spam" "mem1").2.opportunities
      = c2wDb.opportunities := by
  have h := report_removal_rule 50 c2wDb "oppA" "spam" "mem1"
  refine ⟨?_, h.2.2 (by decide)⟩
  rw [h.1]
  decide

/-- C10 (amended): without a requesting member id the delete is
unconditional — the row and its dependent rows are removed and success is
returned with the opportunity id, for every opportunity id; with a member
id supplied, the forbidden (403) failure occurs exactly when the
write-permission check fails, and that check requires an opportunity row
with the given id to exist whose poster is the member or to exist while
the member is an active admin — so an active admin is also refused when no
such opportunity row exists. -/
theorem delete_permission_rule (db : Db) (opportunityId : String) :
    (deleteOpportunity db none opportunityId
      = (Res.ok opportunityId,
         { db with
            opportunities :=
              db.opportunities.filter (fun o => !(o.oid == opportunityId)),
            opportunityTagAssociations :=
              db.opportunityTagAssociations.filter
                (fun a => !(a.1 == opportunityId)),
            opportunityBookmarks :=
              db.opportunityBookmarks.filter (fun b => !(b.1 == opportunityId)),
            opportunityReports :=
              db.opportunityReports.filter
                (fun r => !(r.opportunityId == opportunityId)) })) ∧
    (∀ m, ((deleteOpportunity db (some m) opportunityId).1
        = Res.err 403 "You do not have permission to delete this opportunity.")
      ↔ hasOpportunityWritePermission db m opportunityId = false) ∧
    (∀ m, hasOpportunityWritePermission db m opportunityId = true
      ↔ ∃ o ∈ db.opportunities, (o.oid == opportunityId) = true ∧
          (o.postedBy = some m ∨ isActiveAdmin db m = true)) := by
  refine ⟨rfl, ?_, ?_⟩
  · intro m
    cases h : hasOpportunityWritePermission db m opportunityId with
    | true => simp [deleteOpportunity, h, deleteOpportunityRow]
    | false => simp [deleteOpportunity, h]
  · intro m
    simp [hasOpportunityWritePermission, List.any_eq_true]

def c10Db : Db :=
  { opportunities := []
    opportunityTags := []
    opportunityTagAssociations := []
    opportunityBookmarks := []
    opportunityReports := []
    admins := [{ memberId := "adm", deletedAt := none }] }

/-- C10 counterexample: an active admin requests deletion of an
opportunity id that has no row; the code returns the forbidden 403 failure
although the member is an active admin (and trivially not "neither the
poster nor an active admin"), contradicting the claim that a 403 is only
possible for members who are neither. -/
theorem delete_forbidden_active_admin_cex :
    isActiveAdmin c10Db "adm" = true ∧
    c10Db.opportunities = [] ∧
    deleteOpportunity c10Db (some "adm") "ghost"
      = (Res.err 403 "You do not have permission to delete this opportunity.",
         c10Db) := by
  decide

def c10wDb : Db :=
  { opportunities := [c2Opp]
    opportunityTags := []
    opportunityTagAssociations := [("oppA", "tag1"), ("other", "tag2")]
    opportunityBookmarks := [("oppA", "mem1")]
    opportunityReports := []
    admins := [] }

theorem delete_permission_rule_witness :
    deleteOpportunity c10wDb none "oppA"
      = (Res.ok "oppA",
         { opportunities := []
           opportunityTags := []
           opportunityTagAssociations := [("other", "tag2")]
           opportunityBookmarks := []
           opportunityReports := []
           admins := [] }) := by
  have h := delete_permission_rule c10wDb "oppA"
  rw [h.1]
  decide

/-- C3: if the submitted link passes the duplicate check, the fetch
succeeds and the fetched content contains an expired phrase, then
submit-by-link hard-deletes the placeholder it created, fails with the 404
not-found error, and the store is exactly as before the call — no
opportunity record for the submission remains (the generated id is fresh). -/
theorem expired_link_rejected (env : AddEnv) (db : Db)
    (link postedBy content : String)
    (hnodup : (db.opportunities.any (fun o =>
        match o.link with
        | some l => ilikeMatch link l
        | none => false)) = false)
    (hfetch : env.pageContent = some content)
    (hexp : hasExpiredContent content = true)
    (hfresh : ∀ o ∈ db.opportunities, ¬(o.oid = env.newId)) :
    addOpportunity env db link postedBy
      = Except.ok
          (Res.err 404
            "It looks like the opportunity you are trying to add has closed.",
           db) := by
  have hne : (content == "") = false := by
    cases hc : content == "" with
    | true =>
      have hce : content = "" := by simpa using hc
      rw [hce] at hexp
      exact absurd hexp (by decide)
    | false => rfl
  have hfilter : (db.opportunities.filter (fun o => !(o.oid == env.newId)))
      = db.opportunities := by
    apply List.filter_eq_self.mpr
    intro o ho
    simpa using hfresh o ho
  simp only [addOpportunity]
  rw [hfetch, hnodup]
  simp only [Option.getD_some]
  rw [if_neg Bool.false_ne_true, hne, if_neg Bool.false_ne_true, hexp,
    if_pos rfl, List.filter_append, hfilter]
  simp

def c3Env : AddEnv :=
  { newId := "newX"
    now := 0
    monthFromNow := 100
    pageContent := some "This posting has expired."
    refineEnv :=
      { aiOutcome := AiOutcome.notJson
        resolveCompany := fun _ => none
        parseDate := fun _ => 0
        now := 0 } }

def c3Db : Db :=
  { opportunities := []
    opportunityTags := []
    opportunityTagAssociations := []
    opportunityBookmarks := []
    opportunityReports := []
    admins := [] }

theorem expired_link_rejected_witness :
    addOpportunity c3Env c3Db "http://job" "mem"
      = Except.ok
          (Res.err 404
            "It looks like the opportunity you are trying to add has closed.",
           c3Db) :=
  expired_link_rejected c3Env c3Db "http://job" "mem"
    "This posting has expired." (by decide) rfl (by decide) (by decide)

theorem likeMatchF_self (q : List Char) (hq : '\\' ∉ q) :
    ∀ fuel, 2 * q.length + 1 ≤ fuel → likeMatchF fuel q q = true := by
  induction q with
  | nil =>
    intro fuel hf
    cases fuel with
    | zero => simp at hf
    | succ f => simp [likeMatchF]
  | cons c ps ih =>
    intro fuel hf
    have hc : ¬(c = '\\') := fun h => hq (by simp [h])
    have hps : '\\' ∉ ps := fun h => hq (by simp [h])
    rw [List.length_cons] at hf
    cases fuel with
    | zero => omega
    | succ f =>
      by_cases h1 : c = '%'
      · subst h1
        have htail : likeMatchF f ('%' :: ps) ps = true := by
          cases f with
          | zero => omega
          | succ f2 =>
            have hf3 : 2 * ps.length + 1 ≤ f2 := by omega
            have hrec : likeMatchF f2 ps ps = true := ih hps f2 hf3
            cases ps with
            | nil =>
              cases f2 with
              | zero => omega
              | succ f3 => simp [likeMatchF]
            | cons x xs =>
              simp [likeMatchF, hrec]
        have hgoal : likeMatchF (f + 1) ('%' :: ps) ('%' :: ps)
            = (likeMatchF f ps ('%' :: ps) || likeMatchF f ('%' :: ps) ps) := by
          simp [likeMatchF]
        rw [hgoal, htail, Bool.or_true]
      · by_cases h2 : c = '_'
        · subst h2
          have hrec : likeMatchF f ps ps = true := ih hps f (by omega)
          simp [likeMatchF, hrec]
        · have hrec : likeMatchF f ps ps = true := ih hps f (by omega)
          simp [likeMatchF, h1, h2, hc, hrec]

/-- C4 (amended): the duplicate check compares stored links against the
submitted link as a case-insensitive SQL LIKE pattern (`ILIKE`): whenever
some stored link matches the pattern, submission fails with the 409
conflict and the store is unchanged; and for submitted links free of the
LIKE escape character, a stored link equal up to case always matches, so
such duplicates are always rejected with no second row. Links containing
the escape character can evade the check (see the counterexample). -/
theorem duplicate_link_conflict (env : AddEnv) (db : Db)
    (link postedBy : String) :
    ((∃ o ∈ db.opportunities, ∃ l, o.link = some l ∧ ilikeMatch link l = true) →
      addOpportunity env db link postedBy
        = Except.ok (Res.err 409 "Someone already posted this link.", db)) ∧
    ('\\' ∉ lowerChars link →
      ∀ l, lowerChars l = lowerChars link → ilikeMatch link l = true) := by
  constructor
  · rintro ⟨o, ho, l, holink, hmatch⟩
    have hany : (db.opportunities.any (fun o =>
        match o.link with
        | some l => ilikeMatch link l
        | none => false)) = true := by
      rw [List.any_eq_true]
      refine ⟨o, ho, ?_⟩
      rw [holink]
      exact hmatch
    simp only [addOpportunity]
    rw [hany, if_pos rfl]
  · intro hnb l hl
    unfold ilikeMatch likeMatch
    rw [hl]
    exact likeMatchF_self (lowerChars link) hnb _ (by omega)

def c4Opp : Opportunity :=
  { oid := "old1"
    link := some "http://x/a\\b"
    title := "Opportunity"
    description := "N/A"
    companyId := none
    postedBy := some "mem"
    createdAt := 0
    expiresAt := some 100
    lastExpirationCheck := none
    refinedAt := none }

def c4Db : Db :=
  { opportunities := [c4Opp]
    opportunityTags := []
    opportunityTagAssociations := []
    opportunityBookmarks := []
    opportunityReports := []
    admins := [] }

def c4Env : AddEnv :=
  { newId := "new1"
    now := 0
    monthFromNow := 100
    pageContent := none
    refineEnv :=
      { aiOutcome := AiOutcome.notJson
        resolveCompany := fun _ => none
        parseDate := fun _ => 0
        now := 0 } }

def c4New : Opportunity :=
  { oid := "new1"
    link := some "http://x/a\\b"
    title := "Opportunity"
    description := "N/A"
    companyId := none
    postedBy := some "mem2"
    createdAt := 0
    expiresAt := some 100
    lastExpirationCheck := none
    refinedAt := none }

/-- C4 counterexample: an opportunity with a link containing a backslash
is already stored and the byte-identical link (hence equal
case-insensitively) is submitted again. In the ILIKE pattern the backslash
acts as an escape, so the stored row does not match; the submission
succeeds and a second row with the same link is inserted, instead of the
claimed 409 conflict with no insert. -/
theorem duplicate_backslash_cex :
    c4Opp.link = some "http://x/a\\b" ∧
    addOpportunity c4Env c4Db "http://x/a\\b" "mem2"
      = Except.ok (Res.ok "new1",
          { c4Db with opportunities := [c4Opp, c4New] }) := by
  decide

def c4wOpp : Opportunity :=
  { oid := "w1"
    link := some "HTTP://A/B"
    title := "Opportunity"
    description := "N/A"
    companyId := none
    postedBy := some "mem"
    createdAt := 0
    expiresAt := some 100
    lastExpirationCheck := none
    refinedAt := none }

def c4wDb : Db :=
  { opportunities := [c4wOpp]
    opportunityTags := []
    opportunityTagAssociations := []
    opportunityBookmarks := []
    opportunityReports := []
    admins := [] }

def c4wEnv : AddEnv :=
  { newId := "new2"
    now := 0
    monthFromNow := 100
    pageContent := none
    refineEnv :=
      { aiOutcome := AiOutcome.notJson
        resolveCompany := fun _ => none
        parseDate := fun _ => 0
        now := 0 } }

theorem duplicate_link_conflict_witness :
    addOpportunity c4wEnv c4wDb "http://a/b" "mem"
      = Except.ok (Res.err 409 "Someone already posted this link.", c4wDb) := by
  have h := duplicate_link_conflict c4wEnv c4wDb "http://a/b" "mem"
  exact h.1 ⟨c4wOpp, by decide, "HTTP://A/B", rfl,
    h.2 (by decide) "HTTP://A/B" (by decide)⟩

theorem refine_no_throw (env : RefineEnv) (db : Db) (input : RefineInput)
    (h : ∃ o ∈ db.opportunities, (o.oid == input.opportunityId) = true) :
    ∃ r db2, refineOpportunity env db input = Except.ok (r, db2) := by
  obtain ⟨o, ho, hoid⟩ := h
  cases hfind : db.opportunities.find? (fun o => o.oid == input.opportunityId) with
  | none =>
    exact absurd hoid (List.find?_eq_none.mp hfind o ho)
  | some row =>
    cases hA : env.aiOutcome with
    | err c e => exact ⟨Res.err c e, db, by simp [refineOpportunity, hA]⟩
    | notJson =>
      exact ⟨Res.err 400 "Failed to parse JSON from AI response.", db,
        by simp [refineOpportunity, hA]⟩
    | json j =>
      cases hv : validateRefineResponse j with
      | none =>
        exact ⟨Res.err 400 "Failed to validate JSON from AI response.", db,
          by simp [refineOpportunity, hA, hv]⟩
      | some data =>
        by_cases htd : (data.title.isNone || data.description.isNone) = true
        · refine ⟨Res.ok none, db, ?_⟩
          simp only [refineOpportunity, hA, hv]
          rw [if_pos htd]
        · cases htg : data.tags with
          | none =>
            refine ⟨Res.ok (some (applyRefineFields env data row)),
              { db with opportunities :=
                  (db.opportunities.map (fun o =>
                    if o.oid == input.opportunityId then
                      applyRefineFields env data o
                    else o)).map (fun o =>
                    if o.oid == input.opportunityId && o.refinedAt.isNone then
                      { o with refinedAt := some env.now }
                    else o) }, ?_⟩
            simp only [refineOpportunity, hA, hv, htg]
            rw [if_neg htd, hfind]
          | some tagNames =>
            refine ⟨Res.ok (some (applyRefineFields env data row)),
              { db with
                  opportunities :=
                    (db.opportunities.map (fun o =>
                      if o.oid == input.opportunityId then
                        applyRefineFields env data o
                      else o)).map (fun o =>
                      if o.oid == input.opportunityId && o.refinedAt.isNone then
                        { o with refinedAt := some env.now }
                      else o),
                  opportunityTagAssociations :=
                    (db.opportunityTags.filter
                      (fun t => tagNames.contains t.name)).foldl
                      (fun acc t =>
                        if acc.contains (input.opportunityId, t.tid) then acc
                        else acc ++ [(input.opportunityId, t.tid)])
                      db.opportunityTagAssociations }, ?_⟩
            simp only [refineOpportunity, hA, hv, htg]
            rw [if_neg htd, hfind]

/-- C5: whenever the duplicate check passes, the fetch yields non-empty
content, and no expired phrase occurs in it, submit-by-link returns
success carrying the id of the placeholder it created — for every outcome
of the AI refinement step, including completion failures, malformed
output and thrown lookups: no refinement failure can fail the submission. -/
theorem submission_survives_refinement (env : AddEnv) (db : Db)
    (link postedBy content : String)
    (hnodup : (db.opportunities.any (fun o =>
        match o.link with
        | some l => ilikeMatch link l
        | none => false)) = false)
    (hfetch : env.pageContent = some content)
    (hne : (content == "") = false)
    (hexp : hasExpiredContent content = false) :
    ∃ db2, addOpportunity env db link postedBy
      = Except.ok (Res.ok env.newId, db2) := by
  simp only [addOpportunity]
  rw [hfetch, hnodup]
  simp only [Option.getD_some]
  rw [if_neg Bool.false_ne_true, hne, if_neg Bool.false_ne_true, hexp,
    if_neg Bool.false_ne_true]
  obtain ⟨r, db2, hr⟩ := refine_no_throw env.refineEnv
    { db with opportunities := db.opportunities ++
        [{ oid := env.newId
           link := some link
           title := "Opportunity"
           description := "N/A"
           companyId := none
           postedBy := some postedBy
           createdAt := env.now
           expiresAt := some env.monthFromNow
           lastExpirationCheck := none
           refinedAt := none }] }
    { content := content, opportunityId := env.newId }
    ⟨{ oid := env.newId
       link := some link
       title := "Opportunity"
       description := "N/A"
       companyId := none
       postedBy := some postedBy
       createdAt := env.now
       expiresAt := some env.monthFromNow
       lastExpirationCheck := none
       refinedAt := none },
     List.mem_append_right _ (List.mem_singleton.mpr rfl),
     beq_self_eq_true _⟩
  rw [hr]
  exact ⟨db2, rfl⟩

def c5Env : AddEnv :=
  { newId := "n5"
    now := 0
    monthFromNow := 100
    pageContent := some "hiring"
    refineEnv :=
      { aiOutcome := AiOutcome.notJson
        resolveCompany := fun _ => none
        parseDate := fun _ => 0
        now := 0 } }

def c5Db : Db :=
  { opportunities := []
    opportunityTags := []
    opportunityTagAssociations := []
    opportunityBookmarks := []
    opportunityReports := []
    admins := [] }

def c5New : Opportunity :=
  { oid := "n5"
    link := some "http://j"
    title := "Opportunity"
    description := "N/A"
    companyId := none
    postedBy := some "mem"
    createdAt := 0
    expiresAt := some 100
    lastExpirationCheck := none
    refinedAt := none }

theorem submission_survives_refinement_witness :
    addOpportunity c5Env c5Db "http://j" "mem"
      = Except.ok (Res.ok "n5", { c5Db with opportunities := [c5New] }) := by
  obtain ⟨db2, h⟩ := submission_survives_refinement c5Env c5Db "http://j" "mem"
    "hiring" (by decide) rfl (by decide) (by decide)
  decide

/-- C7: check-expired processes an opportunity only if it is selected —
not yet expired and (forced, never checked, or last checked at least three
hours ago); with force off and a last check strictly within the last three
hours it performs no fetch and no mutation and returns success(false); and
with force on it always fetches the content of a live (future-expiry,
non-empty) link. -/
theorem check_expired_rules (env : CheckEnv) (db : Db)
    (opportunityId : String) (force : Bool) :
    (((checkForExpiredOpportunity env db opportunityId force).fetched = true
        ∨ (checkForExpiredOpportunity env db opportunityId force).db ≠ db) →
      ∃ o ∈ db.opportunities, (o.oid == opportunityId) = true ∧
        (∃ e, o.expiresAt = some e ∧ env.now < e) ∧
        (force = true ∨ o.lastExpirationCheck = none ∨
          ∃ tc, o.lastExpirationCheck = some tc ∧ tc ≤ env.now - 10800000)) ∧
    ((force = false ∧ ∀ o ∈ db.opportunities, (o.oid == opportunityId) = true →
        ∃ tc, o.lastExpirationCheck = some tc ∧ env.now - 10800000 < tc) →
      (checkForExpiredOpportunity env db opportunityId force).fetched = false ∧
      (checkForExpiredOpportunity env db opportunityId force).db = db ∧
      (checkForExpiredOpportunity env db opportunityId force).result
        = Res.ok false) ∧
    ((force = true ∧
        (∃ o, db.opportunities.find? (fun x => x.oid == opportunityId) = some o ∧
          (∃ e, o.expiresAt = some e ∧ env.now < e) ∧
          ∃ l, o.link = some l ∧ ¬(l = ""))) →
      (checkForExpiredOpportunity env db opportunityId force).fetched = true) := by
  refine ⟨?_, ?_, ?_⟩
  · intro hpre
    cases hfind : db.opportunities.find? (fun o =>
        o.oid == opportunityId && expiredCheckSelected env force o) with
    | none =>
      exfalso
      rcases hpre with h | h <;>
        simp only [checkForExpiredOpportunity, hfind] at h <;> simp at h
    | some o =>
      have hp := List.find?_some hfind
      have hmem := List.mem_of_find?_eq_some hfind
      rw [Bool.and_eq_true] at hp
      obtain ⟨hoid, hsel⟩ := hp
      unfold expiredCheckSelected at hsel
      rw [Bool.and_eq_true] at hsel
      obtain ⟨hexp, hthr⟩ := hsel
      refine ⟨o, hmem, hoid, ?_, ?_⟩
      · cases he : o.expiresAt with
        | none => rw [he] at hexp; simp at hexp
        | some e =>
          rw [he] at hexp
          exact ⟨e, rfl, by simpa using hexp⟩
      · rcases Bool.or_eq_true_iff.mp hthr with hf | hrest
        · rcases Bool.or_eq_true_iff.mp hf with hforce | hnone
          · exact Or.inl hforce
          · exact Or.inr (Or.inl (Option.isNone_iff_eq_none.mp hnone))
        · cases hlc : o.lastExpirationCheck with
          | none => rw [hlc] at hrest; simp at hrest
          | some tc =>
            rw [hlc] at hrest
            exact Or.inr (Or.inr ⟨tc, rfl, by simpa using hrest⟩)
  · rintro ⟨hforce, hfresh⟩
    have hnone : db.opportunities.find? (fun o =>
        o.oid == opportunityId && expiredCheckSelected env force o) = none := by
      rw [List.find?_eq_none]
      intro x hx hpred
      rw [Bool.and_eq_true] at hpred
      obtain ⟨hoid, hsel⟩ := hpred
      obtain ⟨tc, htc, hlt⟩ := hfresh x hx hoid
      unfold expiredCheckSelected at hsel
      rw [Bool.and_eq_true] at hsel
      obtain ⟨_, hthr⟩ := hsel
      rw [hforce, htc] at hthr
      simp at hthr
      omega
    refine ⟨?_, ?_, ?_⟩ <;> simp [checkForExpiredOpportunity, hnone]
  · rintro ⟨hforce, o, hfind, ⟨e, he, hlt⟩, l, hl, hlne⟩
    subst hforce
    have hsel : expiredCheckSelected env true o = true := by
      unfold expiredCheckSelected
      rw [he]
      simp [decide_eq_true hlt]
    have hfull : db.opportunities.find? (fun x =>
        x.oid == opportunityId && expiredCheckSelected env true x) = some o :=
      find?_and_eq_some (fun x => x.oid == opportunityId)
        (expiredCheckSelected env true) db.opportunities o hfind hsel
    have hlne2 : (l == "") = false := by
      cases hc : l == "" with
      | true => exact absurd (by simpa using hc) hlne
      | false => rfl
    simp only [checkForExpiredOpportunity, hfull, hl, hlne2]
    rw [if_neg Bool.false_ne_true]
    cases env.fetchResult <;> rfl

def c7Opp : Opportunity :=
  { oid := "o7"
    link := some "http://x"
    title := "T"
    description := "D"
    companyId := none
    postedBy := none
    createdAt := 0
    expiresAt := some 99999999
    lastExpirationCheck := some 19000000
    refinedAt := none }

def c7Db : Db :=
  { opportunities := [c7Opp]
    opportunityTags := []
    opportunityTagAssociations := []
    opportunityBookmarks := []
    opportunityReports := []
    admins := [] }

def c7Env : CheckEnv :=
  { now := 20000000, fetchResult := some "ok page" }

theorem check_expired_rules_witness :
    (checkForExpiredOpportunity c7Env c7Db "o7" false).fetched = false ∧
    (checkForExpiredOpportunity c7Env c7Db "o7" false).db = c7Db ∧
    (checkForExpiredOpportunity c7Env c7Db "o7" false).result = Res.ok false := by
  have h := check_expired_rules c7Env c7Db "o7" false
  refine h.2.1 ⟨rfl, ?_⟩
  intro o ho hoid
  have hoc : o = c7Opp := by simpa [c7Db] using ho
  subst hoc
  exact ⟨19000000, rfl, by decide⟩

/-- C8: when the AI completion is not parseable as JSON, or parses but
fails the structural validation of company/title/description/expiresAt/
tags, refine returns a 400-class failure and the database — opportunity
rows and tag associations included — is left completely unmodified. -/
theorem malformed_ai_no_mutation (env : RefineEnv) (db : Db)
    (input : RefineInput)
    (h : env.aiOutcome = AiOutcome.notJson ∨
      ∃ j, env.aiOutcome = AiOutcome.json j ∧ validateRefineResponse j = none) :
    ∃ msg, refineOpportunity env db input
      = Except.ok (Res.err 400 msg, db) := by
  rcases h with h | ⟨j, hA, hv⟩
  · exact ⟨"Failed to parse JSON from AI response.",
      by simp [refineOpportunity, h]⟩
  · exact ⟨"Failed to validate JSON from AI response.",
      by simp [refineOpportunity, hA, hv]⟩

def c8Env : RefineEnv :=
  { aiOutcome := Json.obj [("company", Json.null),
      ("description", Json.str "too short check"), ("expiresAt", Json.null),
      ("tags", Json.arr []), ("title", Json.str "T")] |> AiOutcome.json
    resolveCompany := fun _ => none
    parseDate := fun _ => 0
    now := 7 }

def c8Db : Db :=
  { opportunities := [c2Opp]
    opportunityTags := [{ tid := "t1", name := "SWE" }]
    opportunityTagAssociations := [("oppA", "t1")]
    opportunityBookmarks := []
    opportunityReports := []
    admins := [] }

theorem malformed_ai_no_mutation_witness :
    refineOpportunity c8Env c8Db { content := "c", opportunityId := "oppA" }
      = Except.ok
          (Res.err 400 "Failed to validate JSON from AI response.", c8Db) := by
  obtain ⟨msg, h⟩ := malformed_ai_no_mutation c8Env c8Db
    { content := "c", opportunityId := "oppA" }
    (Or.inr ⟨Json.obj [("company", Json.null),
      ("description", Json.str "too short check"), ("expiresAt", Json.null),
      ("tags", Json.arr []), ("title", Json.str "T")], rfl, by decide⟩)
  decide

theorem ne_true_of_eq_false {b : Bool} (h : b = false) : ¬(b = true) := by
  rw [h]
  exact Bool.false_ne_true

theorem get_map_map {α : Type} (l : List α) (f g : α → α) (i : Nat)
    (h1 : i < l.length) (h2 : i < ((l.map f).map g).length) :
    ((l.map f).map g).get ⟨i, h2⟩ = g (f (l.get ⟨i, h1⟩)) := by
  simp [List.get_eq_getElem, List.getElem_map]

theorem applyRefineFields_oid (env : RefineEnv) (data : RefineResponse)
    (o : Opportunity) : (applyRefineFields env data o).oid = o.oid := rfl

theorem applyRefineFields_refinedAt (env : RefineEnv) (data : RefineResponse)
    (o : Opportunity) :
    (applyRefineFields env data o).refinedAt = o.refinedAt := rfl

/-- C6: for a valid AI extraction whose `expiresAt` is null but whose title
and description are present, refine succeeds and leaves the stored
`expiresAt` of the target opportunity exactly as it was, while the
extracted title, description and resolved company are applied. -/
theorem null_expiry_preserved (env : RefineEnv) (db : Db)
    (input : RefineInput) (j : Json) (data : RefineResponse) (t d : String)
    (hA : env.aiOutcome = AiOutcome.json j)
    (hv : validateRefineResponse j = some data)
    (hexp : data.expiresAt = none)
    (ht : data.title = some t) (hd : data.description = some d)
    (i : Nat) (h1 : i < db.opportunities.length)
    (hoid : ((db.opportunities.get ⟨i, h1⟩).oid == input.opportunityId) = true) :
    ∃ res db2, refineOpportunity env db input = Except.ok (res, db2) ∧
      ∃ h2 : i < db2.opportunities.length,
        (db2.opportunities.get ⟨i, h2⟩).expiresAt
          = (db.opportunities.get ⟨i, h1⟩).expiresAt ∧
        (db2.opportunities.get ⟨i, h2⟩).title = t ∧
        (db2.opportunities.get ⟨i, h2⟩).description = d ∧
        (db2.opportunities.get ⟨i, h2⟩).companyId
          = (match data.company with
             | some name => env.resolveCompany name
             | none => none) := by
  have htd : (data.title.isNone || data.description.isNone) = false := by
    rw [ht, hd]
    rfl
  have hindex : ∀ h2 : i < ((db.opportunities.map (fun o =>
        if o.oid == input.opportunityId then applyRefineFields env data o
        else o)).map (fun o =>
        if o.oid == input.opportunityId && o.refinedAt.isNone then
          { o with refinedAt := some env.now }
        else o)).length,
      (((db.opportunities.map (fun o =>
        if o.oid == input.opportunityId then applyRefineFields env data o
        else o)).map (fun o =>
        if o.oid == input.opportunityId && o.refinedAt.isNone then
          { o with refinedAt := some env.now }
        else o)).get ⟨i, h2⟩).expiresAt
          = (db.opportunities.get ⟨i, h1⟩).expiresAt ∧
      (((db.opportunities.map (fun o =>
        if o.oid == input.opportunityId then applyRefineFields env data o
        else o)).map (fun o =>
        if o.oid == input.opportunityId && o.refinedAt.isNone then
          { o with refinedAt := some env.now }
        else o)).get ⟨i, h2⟩).title = t ∧
      (((db.opportunities.map (fun o =>
        if o.oid == input.opportunityId then applyRefineFields env data o
        else o)).map (fun o =>
        if o.oid == input.opportunityId && o.refinedAt.isNone then
          { o with refinedAt := some env.now }
        else o)).get ⟨i, h2⟩).description = d ∧
      (((db.opportunities.map (fun o =>
        if o.oid == input.opportunityId then applyRefineFields env data o
        else o)).map (fun o =>
        if o.oid == input.opportunityId && o.refinedAt.isNone then
          { o with refinedAt := some env.now }
        else o)).get ⟨i, h2⟩).companyId
          = (match data.company with
             | some name => env.resolveCompany name
             | none => none) := by
    intro h2
    rw [get_map_map db.opportunities _ _ i h1 h2, if_pos hoid]
    by_cases hc : ((applyRefineFields env data
          (db.opportunities.get ⟨i, h1⟩)).oid == input.opportunityId
        && (applyRefineFields env data
          (db.opportunities.get ⟨i, h1⟩)).refinedAt.isNone) = true
    · rw [if_pos hc]
      refine ⟨?_, ?_, ?_, ?_⟩ <;> simp [applyRefineFields, hexp, ht, hd]
    · rw [if_neg hc]
      refine ⟨?_, ?_, ?_, ?_⟩ <;> simp [applyRefineFields, hexp, ht, hd]
  cases hfind : db.opportunities.find? (fun o => o.oid == input.opportunityId) with
  | none =>
    exact absurd hoid
      (List.find?_eq_none.mp hfind (db.opportunities.get ⟨i, h1⟩)
        (List.get_mem db.opportunities i h1))
  | some row =>
    cases htg : data.tags with
    | none =>
      refine ⟨Res.ok (some (applyRefineFields env data row)),
        { db with opportunities :=
            (db.opportunities.map (fun o =>
              if o.oid == input.opportunityId then applyRefineFields env data o
              else o)).map (fun o =>
              if o.oid == input.opportunityId && o.refinedAt.isNone then
                { o with refinedAt := some env.now }
              else o) }, ?_, ?_⟩
      · simp only [refineOpportunity, hA, hv, htg, htd]
        rw [if_neg Bool.false_ne_true, hfind]
      · exact ⟨by simpa using h1, hindex _⟩
    | some tagNames =>
      refine ⟨Res.ok (some (applyRefineFields env data row)),
        { db with
            opportunities :=
              (db.opportunities.map (fun o =>
                if o.oid == input.opportunityId then applyRefineFields env data o
                else o)).map (fun o =>
                if o.oid == input.opportunityId && o.refinedAt.isNone then
                  { o with refinedAt := some env.now }
                else o),
            opportunityTagAssociations :=
              (db.opportunityTags.filter
                (fun t2 => tagNames.contains t2.name)).foldl
                (fun acc t2 =>
                  if acc.contains (input.opportunityId, t2.tid) then acc
                  else acc ++ [(input.opportunityId, t2.tid)])
                db.opportunityTagAssociations }, ?_, ?_⟩
      · simp only [refineOpportunity, hA, hv, htg, htd]
        rw [if_neg Bool.false_ne_true, hfind]
      · exact ⟨by simpa using h1, hindex _⟩

def c6Json : Json :=
  Json.obj [("company", Json.str "Acme"),
    ("description", Json.str "Great role"), ("expiresAt", Json.null),
    ("tags", Json.null), ("title", Json.str "Engineer")]

def c6Data : RefineResponse :=
  { company := some "Acme"
    description := some "Great role"
    expiresAt := none
    tags := none
    title := some "Engineer" }

def c6Env : RefineEnv :=
  { aiOutcome := AiOutcome.json c6Json
    resolveCompany := fun _ => some "comp9"
    parseDate := fun _ => 0
    now := 77 }

def c6Opp : Opportunity :=
  { oid := "o6"
    link := some "http://x"
    title := "Opportunity"
    description := "N/A"
    companyId := none
    postedBy := some "m"
    createdAt := 0
    expiresAt := some 1234
    lastExpirationCheck := none
    refinedAt := none }

def c6Db : Db :=
  { opportunities := [c6Opp]
    opportunityTags := []
    opportunityTagAssociations := []
    opportunityBookmarks := []
    opportunityReports := []
    admins := [] }

def c6Mid : Opportunity :=
  { oid := "o6"
    link := some "http://x"
    title := "Engineer"
    description := "Great role"
    companyId := some "comp9"
    postedBy := some "m"
    createdAt := 0
    expiresAt := some 1234
    lastExpirationCheck := none
    refinedAt := none }

def c6Post : Opportunity :=
  { oid := "o6"
    link := some "http://x"
    title := "Engineer"
    description := "Great role"
    companyId := some "comp9"
    postedBy := some "m"
    createdAt := 0
    expiresAt := some 1234
    lastExpirationCheck := none
    refinedAt := some 77 }

theorem null_expiry_preserved_witness :
    refineOpportunity c6Env c6Db { content := "c", opportunityId := "o6" }
      = Except.ok (Res.ok (some c6Mid),
          { c6Db with opportunities := [c6Post] }) := by
  obtain ⟨res, db2, heq, h2, hrest⟩ :=
    null_expiry_preserved c6Env c6Db { content := "c", opportunityId := "o6" }
      c6Json c6Data "Engineer" "Great role" rfl (by decide) rfl rfl rfl
      0 (by decide) (by decide)
  decide

theorem refine_stamp_row (env : RefineEnv) (data : RefineResponse)
    (oppId : String) (o o2 : Opportunity)
    (h : o2 = (if (((if (o.oid == oppId) = true then applyRefineFields env data o
          else o).oid == oppId
        && (if (o.oid == oppId) = true then applyRefineFields env data o
          else o).refinedAt.isNone) = true) then
        { (if (o.oid == oppId) = true then applyRefineFields env data o
            else o) with refinedAt := some env.now }
      else (if (o.oid == oppId) = true then applyRefineFields env data o
            else o))) :
    o2.refinedAt
      = (if (o.oid == oppId && o.refinedAt.isNone) = true then some env.now
         else o.refinedAt) := by
  subst h
  by_cases hoid : ((o.oid == oppId) = true)
  · rw [if_pos hoid]
    cases hx : o.refinedAt with
    | none =>
      have hcond : ((applyRefineFields env data o).oid == oppId
          && (applyRefineFields env data o).refinedAt.isNone) = true := by
        rw [applyRefineFields_oid, applyRefineFields_refinedAt, hoid, hx]
        rfl
      rw [if_pos hcond, hoid]
      rfl
    | some v =>
      have hcond : ((applyRefineFields env data o).oid == oppId
          && (applyRefineFields env data o).refinedAt.isNone) = false := by
        rw [applyRefineFields_oid, applyRefineFields_refinedAt, hoid, hx]
        rfl
      rw [if_neg (ne_true_of_eq_false hcond), applyRefineFields_refinedAt,
        hx, hoid]
      rfl
  · have hfalse : ((o.oid == oppId) = false) := Bool.eq_false_iff.mpr hoid
    have hcondR : (o.oid == oppId && o.refinedAt.isNone) = false := by
      rw [hfalse]
      rfl
    rw [if_neg hoid, if_neg (ne_true_of_eq_false hcondR),
      if_neg (ne_true_of_eq_false hcondR)]

/-- C1: `refinedAt` transitions from null to a timestamp at most once, and
only on a successful full enrichment: whatever the outcome of refine, a
row whose `refinedAt` was already non-null keeps it unchanged; and if a
row's `refinedAt` changed at all, then it was null before the call, it is
now the current timestamp, and the call returned the success that carries
the updated opportunity — so a second refine with valid AI output leaves
the already-set `refinedAt` untouched. -/
theorem refinedAt_set_once (env : RefineEnv) (db : Db) (input : RefineInput)
    (res : Res (Option Opportunity)) (db2 : Db)
    (h : refineOpportunity env db input = Except.ok (res, db2))
    (i : Nat) :
    db2.opportunities.length = db.opportunities.length ∧
    ∀ o o2 : Opportunity, db.opportunities.get? i = some o →
      db2.opportunities.get? i = some o2 →
      (o.refinedAt.isSome → o2.refinedAt = o.refinedAt) ∧
      (o2.refinedAt ≠ o.refinedAt →
        o.refinedAt = none ∧ (∃ u, res = Res.ok (some u)) ∧
        o2.refinedAt = some env.now) := by
  have trivialCase : db2 = db →
      db2.opportunities.length = db.opportunities.length ∧
      ∀ o o2 : Opportunity, db.opportunities.get? i = some o →
        db2.opportunities.get? i = some o2 →
        (o.refinedAt.isSome → o2.refinedAt = o.refinedAt) ∧
        (o2.refinedAt ≠ o.refinedAt →
          o.refinedAt = none ∧ (∃ u, res = Res.ok (some u)) ∧
          o2.refinedAt = some env.now) := by
    intro hdb
    subst hdb
    refine ⟨rfl, ?_⟩
    intro o o2 ho ho2
    rw [ho] at ho2
    cases ho2
    exact ⟨fun _ => rfl, fun hne => absurd rfl hne⟩
  cases hA : env.aiOutcome with
  | err c e =>
    simp only [refineOpportunity, hA] at h
    rw [Except.ok.injEq, Prod.mk.injEq] at h
    exact trivialCase h.2.symm
  | notJson =>
    simp only [refineOpportunity, hA] at h
    rw [Except.ok.injEq, Prod.mk.injEq] at h
    exact trivialCase h.2.symm
  | json j =>
    cases hv : validateRefineResponse j with
    | none =>
      simp only [refineOpportunity, hA, hv] at h
      rw [Except.ok.injEq, Prod.mk.injEq] at h
      exact trivialCase h.2.symm
    | some data =>
      by_cases htd : (data.title.isNone || data.description.isNone) = true
      · simp only [refineOpportunity, hA, hv] at h
        rw [if_pos htd, Except.ok.injEq, Prod.mk.injEq] at h
        exact trivialCase h.2.symm
      · cases hfind : db.opportunities.find?
            (fun o => o.oid == input.opportunityId) with
        | none =>
          simp only [refineOpportunity, hA, hv] at h
          rw [if_neg htd, hfind] at h
          exact absurd h (by simp)
        | some row =>
          have hkey : db2.opportunities
              = (db.opportunities.map (fun o =>
                  if o.oid == input.opportunityId then
                    applyRefineFields env data o
                  else o)).map (fun o =>
                  if o.oid == input.opportunityId && o.refinedAt.isNone then
                    { o with refinedAt := some env.now }
                  else o) ∧
              res = Res.ok (some (applyRefineFields env data row)) := by
            cases htg : data.tags with
            | none =>
              simp only [refineOpportunity, hA, hv, htg] at h
              rw [if_neg htd, hfind] at h
              rw [Except.ok.injEq, Prod.mk.injEq] at h
              exact ⟨by rw [← h.2], h.1.symm⟩
            | some tagNames =>
              simp only [refineOpportunity, hA, hv, htg] at h
              rw [if_neg htd, hfind] at h
              rw [Except.ok.injEq, Prod.mk.injEq] at h
              exact ⟨by rw [← h.2], h.1.symm⟩
          obtain ⟨hopp, hres⟩ := hkey
          constructor
          · rw [hopp]
            simp
          · intro o o2 ho ho2
            rw [hopp] at ho2
            simp only [List.get?_map, ho, Option.map_some'] at ho2
            have ho2eq := Option.some.inj ho2
            have hstamp := refine_stamp_row env data input.opportunityId o o2
              ho2eq.symm
            constructor
            · intro hsome
              have hnn : (o.refinedAt.isNone) = false := by
                cases hx : o.refinedAt with
                | none => rw [hx] at hsome; simp at hsome
                | some v => rfl
              rw [hstamp, hnn, Bool.and_false, if_neg Bool.false_ne_true]
            · intro hne
              rw [hstamp] at hne
              by_cases hc : (o.oid == input.opportunityId
                  && o.refinedAt.isNone) = true
              · refine ⟨?_, ⟨applyRefineFields env data row, hres⟩, ?_⟩
                · exact Option.isNone_iff_eq_none.mp
                    (Bool.and_eq_true _ _ ▸ hc).2
                · rw [hstamp, if_pos hc]
              · exfalso
                rw [if_neg hc] at hne
                exact hne rfl

def c1Json : Json :=
  Json.obj [("company", Json.null),
    ("description", Json.str "Second pass description"),
    ("expiresAt", Json.str "2031-01-01"), ("tags", Json.null),
    ("title", Json.str "Second Title")]

def c1Env : RefineEnv :=
  { aiOutcome := AiOutcome.json c1Json
    resolveCompany := fun _ => none
    parseDate := fun _ => 555
    now := 99 }

def c1Opp : Opportunity :=
  { oid := "o1"
    link := some "http://x"
    title := "First Title"
    description := "First description"
    companyId := none
    postedBy := some "m"
    createdAt := 0
    expiresAt := some 1000
    lastExpirationCheck := none
    refinedAt := some 5 }

def c1Db : Db :=
  { opportunities := [c1Opp]
    opportunityTags := []
    opportunityTagAssociations := []
    opportunityBookmarks := []
    opportunityReports := []
    admins := [] }

def c1Mid : Opportunity :=
  { oid := "o1"
    link := some "http://x"
    title := "Second Title"
    description := "Second pass description"
    companyId := none
    postedBy := some "m"
    createdAt := 0
    expiresAt := some 555
    lastExpirationCheck := none
    refinedAt := some 5 }

def c1Res : Res (Option Opportunity) := Res.ok (some c1Mid)

def c1Db2 : Db :=
  { opportunities := [c1Mid]
    opportunityTags := []
    opportunityTagAssociations := []
    opportunityBookmarks := []
    opportunityReports := []
    admins := [] }

theorem refinedAt_set_once_witness :
    c1Mid.refinedAt = c1Opp.refinedAt ∧ c1Opp.refinedAt = some 5 := by
  obtain ⟨hlen, hpt⟩ := refinedAt_set_once c1Env c1Db
    { content := "c", opportunityId := "o1" } c1Res c1Db2 (by decide) 0
  exact ⟨(hpt c1Opp c1Mid rfl rfl).1 (by decide), rfl⟩

end Oyster
